import Mathlib

/-!
Verification development for the playground command pipeline
(`src/code_execution/playground/misc_commands.rs`).

The four commands (`miri`, `expand`, `clippy`, `fmt`) are embedded as pure
pipeline functions.  Effectful collaborators (the HTTP backends, the local
rustfmt tool, the reply transport) are passed in as oracle arguments so that
each pipeline is a pure function of the command input and of the outcomes of
its external calls, mirroring the Rust control flow statement by statement.

Helper routines that live in `util.rs` / `api.rs` (not part of the provided
sources) are modelled from the specification; each such definition carries a
doc comment saying so.
-/

deriving instance DecidableEq for Except

namespace Rustbot

/-- Rust `str::starts_with` on character lists: `charsStartWith p l` is true
iff `p` is a prefix of `l`. -/
def charsStartWith : List Char → List Char → Bool
  | [], _ => true
  | _ :: _, [] => false
  | p :: ps, c :: cs => p == c && charsStartWith ps cs

/-- Rust `str::contains` on character lists: `charsContain pat l` is true iff
`pat` occurs contiguously inside `l`. -/
def charsContain (pat : List Char) : List Char → Bool
  | [] => pat.isEmpty
  | c :: cs => charsStartWith pat (c :: cs) || charsContain pat cs

/-- Rust `s.contains(pat)` for strings. -/
def containsSubstr (s pat : String) : Bool :=
  charsContain pat.data s.data

/-- Split a character list at every newline character.  Always returns a
non-empty list of lines; inverse of `joinLines`. -/
def splitLines : List Char → List (List Char)
  | [] => [[]]
  | c :: cs =>
    if c == '\n' then [] :: splitLines cs
    else
      match splitLines cs with
      | r :: rs => (c :: r) :: rs
      | [] => [[c]]

/-- Join lines with newline characters; inverse of `splitLines`. -/
def joinLines : List (List Char) → List Char
  | [] => []
  | [l] => l
  | l :: l' :: ls => l ++ '\n' :: joinLines (l' :: ls)

/-- Does this line contain any of the given marker strings? (Rust:
`markers.iter().any(|t| line.contains(t))`.) -/
def lineContainsAny (line : List Char) (markers : List String) : Bool :=
  markers.any (fun m => charsContain m.data line)

/-- Modelled from the spec: core of `extract_relevant_lines` (§4.4; the
function itself lives in `util.rs`, which is not among the sources).  Scan
lines in order; begin emitting after the first line containing any start
marker (that line excluded); if no line contains a start marker, emit from
the top; stop emitting (and discard the remainder) at the first line
containing any stop marker (also excluded). -/
def extractCore (ls : List (List Char)) (starts stops : List String) :
    List (List Char) :=
  (if ls.any (fun l => lineContainsAny l starts) then
    (ls.dropWhile (fun l => !(lineContainsAny l starts))).drop 1
  else ls).takeWhile (fun l => !(lineContainsAny l stops))

/-- Modelled from the spec: `extract_relevant_lines(text, start_markers,
stop_markers)` of §4.4 (`util.rs` is not among the sources). -/
def extract_relevant_lines (text : String) (starts stops : List String) :
    String :=
  String.mk (joinLines (extractCore (splitLines text.data) starts stops))

/-- Response shape shared by every playground backend and by the formatter. -/
structure PlayResult where
  success : Bool
  stdout : String
  stderr : String
deriving DecidableEq, Repr

/-- Language edition sent to the playground (a pass-through flag value). -/
abbrev Edition := String

/-- Invocation-terminating error (network failure, decode failure, or a
local-tool execution failure), as carried by Rust `Error`. -/
abbrev Err := String

/-- Crate kind sent to the lint backend. -/
inductive CrateType where
  | Binary
  | Library
deriving DecidableEq, Repr

/-- Request body of the miri backend. -/
structure MiriRequest where
  code : String
  edition : Edition
deriving DecidableEq, Repr

/-- Request body of the macro-expansion backend. -/
structure MacroExpansionRequest where
  code : String
  edition : Edition
deriving DecidableEq, Repr

/-- Request body of the clippy backend. -/
structure ClippyRequest where
  code : String
  edition : Edition
  crate_type : CrateType
deriving DecidableEq, Repr

/-- Ownership tag of the possibly-wrapped code (Rust `Cow<'_, str>`):
`Borrowed` = original snippet unchanged, `Owned` = freshly wrapped copy. -/
inductive WrappedCode where
  | Borrowed (text : String)
  | Owned (text : String)
deriving DecidableEq, Repr

/-- The text carried by either variant. -/
def WrappedCode.text : WrappedCode → String
  | .Borrowed t => t
  | .Owned t => t

/-- Whether wrapping occurred (Rust `matches!(code, Cow::Owned(_))`). -/
def WrappedCode.isOwned : WrappedCode → Bool
  | .Borrowed _ => false
  | .Owned _ => true

/-- Result-handling mode governing the wrapper template (§3). -/
inductive ResultHandling where
  | None
  | Discard
deriving DecidableEq, Repr

/-- Modelled from the spec: the statement wrapped around the snippet body by
§4.2 (`util.rs` is not among the sources).  `Discard` evaluates and drops the
result; `None` prints the result when it has a displayable type. -/
def wrappedBody : ResultHandling → String → String
  | .Discard, code => "let _ = \x7b\n" ++ code ++ "\n\x7d;"
  | .None, code => "println!(\"\x7b:?\x7d\", \x7b\n" ++ code ++ "\n\x7d);"

/-- Modelled from the spec: `maybe_wrap` of §4.2 (`util.rs` is not among the
sources).  A snippet already containing an entry-point function is returned
unchanged (`Borrowed`); otherwise an entry-point function is synthesized
around it (`Owned`), with the body governed by the `ResultHandling` mode. -/
def maybe_wrap (code : String) (rh : ResultHandling) : WrappedCode :=
  if containsSubstr code "fn main" then
    .Borrowed code
  else
    .Owned ("fn main() \x7b\n" ++ wrappedBody rh code ++ "\n\x7d")

/-- Remove one level of the four-space indentation introduced by rustfmt. -/
def deindentLine (l : List Char) : List Char :=
  if charsStartWith [' ', ' ', ' ', ' '] l then l.drop 4 else l

/-- Modelled from the spec: `strip_fn_main_boilerplate_from_formatted` of
§4.5 (`util.rs` is not among the sources).  Locates the synthesized wrapper
by structural match on the entry-point signature inserted by §4.2 (first
line) and its closing brace (last line); when both match, removes them and
the indentation of the body; otherwise returns the text unchanged. -/
def strip_fn_main_boilerplate_from_formatted (stdout : String) : String :=
  match splitLines stdout.data with
  | first :: rest =>
    if first == ("fn main() \x7b").data && rest.getLast? == some ("\x7d").data
    then String.mk (joinLines (rest.dropLast.map deindentLine))
    else stdout
  | [] => stdout

/-- Generic stderr sanitization step: replace the stderr field by its
extracted relevant lines, leaving success and stdout alone. -/
def sanitizeStderr (starts stops : List String) (r : PlayResult) : PlayResult :=
  { r with stderr := extract_relevant_lines r.stderr starts stops }

/-- Start markers of the miri command (`misc_commands.rs` line 31). -/
def miriStartMarkers : List String := ["Running `/playground"]

/-- Stop markers of the miri command (`misc_commands.rs` line 32). -/
def miriStopMarkers : List String := ["error: aborting"]

/-- Start markers of the expand command (`misc_commands.rs` line 78). -/
def expandStartMarkers : List String := ["Finished ", "Compiling playground"]

/-- Stop markers of the expand command (`misc_commands.rs` line 79). -/
def expandStopMarkers : List String := ["error: aborting"]

/-- Start markers of the clippy command (`misc_commands.rs` line 137). -/
def clippyStartMarkers : List String := ["Checking playground", "Running `/playground"]

/-- Stop markers of the clippy command (`misc_commands.rs` lines 138-143). -/
def clippyStopMarkers : List String :=
  ["error: aborting", "1 warning emitted", "warnings emitted", "Finished "]

/-- Stderr sanitization of the miri command (`misc_commands.rs` lines 29-34). -/
def miriSanitize (r : PlayResult) : PlayResult :=
  sanitizeStderr miriStartMarkers miriStopMarkers r

/-- Stderr sanitization of the expand command (`misc_commands.rs` lines 76-81). -/
def expandSanitize (r : PlayResult) : PlayResult :=
  sanitizeStderr expandStartMarkers expandStopMarkers r

/-- Stderr sanitization of the clippy command (`misc_commands.rs` lines 135-145). -/
def clippySanitize (r : PlayResult) : PlayResult :=
  sanitizeStderr clippyStartMarkers clippyStopMarkers r

/-- Reply rendered at the external boundary (§4.6): the final result plus the
code it was produced from. -/
structure Reply where
  result : PlayResult
  code : String
deriving DecidableEq, Repr

/-- Modelled from the spec: the external `send_reply` boundary (§4.6) merely
consumes the final result; embedded as a constructor of the rendered reply. -/
def send_reply (result : PlayResult) (code : String) : Reply :=
  ⟨result, code⟩

/-- The clippy request built at `misc_commands.rs` lines 121-129: the crate
kind is `Binary` when the (already wrapped) code contains `"fn main"`, else
`Library`. -/
def clippyRequest (code : String) (edition : Edition) : ClippyRequest :=
  { code := code
    edition := edition
    crate_type :=
      if containsSubstr code "fn main" then CrateType.Binary
      else CrateType.Library }

/-- The `miri` command (`misc_commands.rs` lines 8-37), as a pure function of
the raw snippet, the edition flag, and the backend oracle `respond` (one HTTP
round-trip: request in, decoded result or hard error out).  A hard error is
propagated by `?`; otherwise stderr is sanitized and the reply sent. -/
def miriPipeline (rawCode : String) (edition : Edition)
    (respond : MiriRequest → Except Err PlayResult) : Except Err Reply :=
  let code := (maybe_wrap rawCode ResultHandling.Discard).text
  match respond ⟨code, edition⟩ with
  | .error e => .error e
  | .ok result => .ok (send_reply (miriSanitize result) code)

/-- The `clippy` command (`misc_commands.rs` lines 109-148), as a pure
function of the raw snippet, the edition flag, and the backend oracle. -/
def clippyPipeline (rawCode : String) (edition : Edition)
    (respond : ClippyRequest → Except Err PlayResult) : Except Err Reply :=
  let code := (maybe_wrap rawCode ResultHandling.Discard).text
  match respond (clippyRequest code edition) with
  | .error e => .error e
  | .ok result => .ok (send_reply (clippySanitize result) code)

/-- The formatting step of the `expand` command (`misc_commands.rs` lines
83-89): run only when the expansion result has `success = true`; a successful
rustfmt outcome replaces stdout, an unsuccessful or erroring one is merely
logged.  The boolean records whether the local formatter was invoked. -/
def expandFormatStep (result : PlayResult)
    (fmtOutcome : Except Err PlayResult) : PlayResult × Bool :=
  if result.success then
    (match fmtOutcome with
     | .ok r => if r.success then { result with stdout := r.stdout } else result
     | .error _ => result,
     true)
  else
    (result, false)

/-- The `expand` command (`misc_commands.rs` lines 54-95), as a pure function
of the raw snippet, the edition flag, the backend oracle, the local rustfmt
oracle, and a remote rustfmt oracle.  The body never consults
`onlineRustfmt`: the expand command has no remote formatting fallback.  The
returned boolean records whether the local formatter was invoked. -/
def expandPipeline (rawCode : String) (edition : Edition)
    (respond : MacroExpansionRequest → Except Err PlayResult)
    (localRustfmt : String → Edition → Except Err PlayResult)
    (onlineRustfmt : String → Edition → Except Err PlayResult) :
    Except Err Reply × Bool :=
  let code := maybe_wrap rawCode ResultHandling.None
  let wasWrapped := code.isOwned
  match respond ⟨code.text, edition⟩ with
  | .error e => (.error e, false)
  | .ok result =>
    let result := expandSanitize result
    let step := expandFormatStep result (localRustfmt result.stdout edition)
    let result := step.1
    let result :=
      if wasWrapped then
        { result with
          stdout := strip_fn_main_boilerplate_from_formatted result.stdout }
      else result
    (.ok (send_reply result code.text), step.2)

/-- The `fmt` command (`misc_commands.rs` lines 162-184), as a pure function
of the raw snippet, the edition flag, the local rustfmt oracle, and the
remote rustfmt oracle.  A local execution error is logged and the remote
formatter is consulted instead, its own error propagating via `?`; the
natural number counts remote invocations. -/
def fmtPipeline (rawCode : String) (edition : Edition)
    (localRustfmt : String → Edition → Except Err PlayResult)
    (onlineRustfmt : String → Edition → Except Err PlayResult) :
    Except Err Reply × Nat :=
  let code := maybe_wrap rawCode ResultHandling.None
  let wasWrapped := code.isOwned
  let attempt : Except Err PlayResult × Nat :=
    match localRustfmt code.text edition with
    | .ok x => (.ok x, 0)
    | .error _ => (onlineRustfmt code.text edition, 1)
  match attempt with
  | (.error e, n) => (.error e, n)
  | (.ok result, n) =>
    let result :=
      if wasWrapped then
        { result with
          stdout := strip_fn_main_boilerplate_from_formatted result.stdout }
      else result
    (.ok (send_reply result code.text), n)

/-! Helper lemmas. -/

theorem charsStartWith_iff (p : List Char) :
    ∀ l : List Char, charsStartWith p l = true ↔ p <+: l := by
  induction p with
  | nil => intro l; simp [charsStartWith]
  | cons a ps ih =>
    intro l
    cases l with
    | nil => simp [charsStartWith]
    | cons c cs => simp [charsStartWith, ih]

theorem charsContain_iff (pat : List Char) :
    ∀ l : List Char, charsContain pat l = true ↔ pat <:+: l := by
  intro l
  induction l with
  | nil => simp [charsContain, List.isEmpty_iff]
  | cons c cs ih =>
    rw [charsContain, Bool.or_eq_true, charsStartWith_iff pat (c :: cs), ih,
      List.infix_cons_iff]

theorem containsSubstr_iff (s pat : String) :
    containsSubstr s pat = true ↔ pat.data <:+: s.data :=
  charsContain_iff pat.data s.data

theorem splitLines_ne_nil (cs : List Char) : splitLines cs ≠ [] := by
  induction cs with
  | nil => simp [splitLines]
  | cons c cs ih =>
    rw [splitLines]
    split
    · exact List.cons_ne_nil _ _
    · split
      · exact List.cons_ne_nil _ _
      · exact List.cons_ne_nil _ _

theorem joinLines_splitLines (cs : List Char) :
    joinLines (splitLines cs) = cs := by
  induction cs with
  | nil => rfl
  | cons c cs ih =>
    rw [splitLines]
    by_cases h : (c == '\n') = true
    · rw [if_pos h]
      cases hs : splitLines cs with
      | nil => exact absurd hs (splitLines_ne_nil cs)
      | cons r rs =>
        rw [hs] at ih
        rw [joinLines, List.nil_append, ih, (beq_iff_eq).mp h]
    · rw [if_neg h]
      cases hs : splitLines cs with
      | nil => exact absurd hs (splitLines_ne_nil cs)
      | cons r rs =>
        rw [hs] at ih
        cases rs with
        | nil =>
          rw [joinLines] at ih
          rw [joinLines, ih]
        | cons r' rs' =>
          rw [joinLines] at ih
          rw [joinLines, List.cons_append, ih]

theorem takeWhile_all_eq_self {α : Type} (p : α → Bool) :
    ∀ l : List α, (∀ x ∈ l, p x = true) → l.takeWhile p = l := by
  intro l
  induction l with
  | nil => intro _; rfl
  | cons a l ih =>
    intro h
    rw [List.takeWhile_cons, h a (by simp)]
    simp [ih fun x hx => h x (by simp [hx])]

theorem dropWhile_eq_drop_of_findIdx {α : Type} (p : α → Bool) :
    ∀ (l : List α) (i : Nat), l.findIdx? p = some i →
      l.dropWhile (fun x => !(p x)) = l.drop i := by
  intro l
  induction l with
  | nil => intro i h; simp at h
  | cons a l ih =>
    intro i h
    rw [List.findIdx?_cons] at h
    by_cases hp : p a = true
    · rw [if_pos hp] at h
      cases h
      simp [List.dropWhile_cons, hp]
    · have hp' : p a = false := by simpa using hp
      rw [if_neg (by simp [hp'])] at h
      rw [List.findIdx?_succ] at h
      cases hj : l.findIdx? p with
      | none => rw [hj] at h; simp at h
      | some j =>
        rw [hj] at h
        simp at h
        subst h
        simp [List.dropWhile_cons, hp', List.drop_succ_cons, ih j hj]

theorem findIdx?_none_of_any_false {α : Type} (p : α → Bool) (l : List α)
    (h : l.any p = false) : l.findIdx? p = none := by
  rw [List.findIdx?_eq_none_iff]
  intro x hx
  simpa using (List.any_eq_false.mp h) x hx

theorem any_true_of_findIdx?_some {α : Type} (p : α → Bool) (l : List α)
    (i : Nat) (h : l.findIdx? p = some i) : l.any p = true := by
  by_contra hc
  have : l.any p = false := by simpa using hc
  rw [findIdx?_none_of_any_false p l this] at h
  exact Option.noConfusion h

theorem string_mk_data (s : String) : String.mk s.data = s := rfl

/-! Claim theorems. -/

/-- C3: for every code string sent by the clippy command, the crate-kind
field of the lint-backend request is `Binary` if the (already-wrapped) code
textually contains the substring `"fn main"`, and `Library` otherwise. -/
theorem clippy_crate_kind_inference (code : String) (edition : Edition) :
    ((clippyRequest code edition).crate_type = CrateType.Binary ↔
      ("fn main" : String).data <:+: code.data)
    ∧ ((clippyRequest code edition).crate_type = CrateType.Library ↔
      ¬ ("fn main" : String).data <:+: code.data) := by
  unfold clippyRequest
  by_cases h : containsSubstr code "fn main" = true
  · have := (containsSubstr_iff code "fn main").mp h
    simp [h, this]
  · have hb : containsSubstr code "fn main" = false := by simpa using h
    have : ¬ ("fn main" : String).data <:+: code.data := by
      intro hc
      rw [(containsSubstr_iff code "fn main").mpr hc] at hb
      exact Bool.noConfusion hb
    simp [hb, this]

/-- C3 witness: a concrete code string containing `fn main` is classified as
`Binary`, one without it as `Library`. -/
theorem clippy_crate_kind_inference_witness :
    (clippyRequest "fn main() \x7b\x7d" "2021").crate_type = CrateType.Binary
    ∧ (clippyRequest "pub fn add(a: u32) -> u32" "2021").crate_type =
      CrateType.Library :=
  ⟨(clippy_crate_kind_inference "fn main() \x7b\x7d" "2021").1.mpr (by decide),
   (clippy_crate_kind_inference "pub fn add(a: u32) -> u32" "2021").2.mpr
     (by decide)⟩

/-- C5: the sanitizer marker sets are per backend: the miri command starts at
a line announcing program execution (a `Running` line) and stops at an
`aborting` compile diagnostic; the clippy command starts at either a
`Checking` or `Running` line and stops at any of several completion
diagnostics. -/
theorem sanitizer_marker_sets :
    (∀ r, miriSanitize r =
      { r with stderr :=
          extract_relevant_lines r.stderr miriStartMarkers miriStopMarkers })
    ∧ miriStartMarkers = ["Running `/playground"]
    ∧ miriStopMarkers = ["error: aborting"]
    ∧ containsSubstr "Running `/playground" "Running" = true
    ∧ containsSubstr "error: aborting" "aborting" = true
    ∧ (∀ r, clippySanitize r =
      { r with stderr :=
          extract_relevant_lines r.stderr clippyStartMarkers clippyStopMarkers })
    ∧ clippyStartMarkers = ["Checking playground", "Running `/playground"]
    ∧ clippyStopMarkers =
      ["error: aborting", "1 warning emitted", "warnings emitted", "Finished "]
    ∧ containsSubstr "Checking playground" "Checking" = true := by
  refine ⟨fun r => rfl, rfl, rfl, by decide, by decide, fun r => rfl, rfl, rfl,
    by decide⟩

/-- C7: in the end-to-end Discard-mode scenario, the bare snippet `1 + 1` is
wrapped into an entry-point function discarding the value, and the sanitizer
with start markers `["Finished "]` and stop markers `["error: aborting"]`
reduces the backend stderr `"Compiling...\nFinished dev [unoptimized]
...\n"` to the empty string, so the reply shows success with empty
diagnostic output. -/
theorem discard_mode_scenario :
    (maybe_wrap "1 + 1" ResultHandling.Discard).isOwned = true
    ∧ (maybe_wrap "1 + 1" ResultHandling.Discard).text =
      "fn main() \x7b\n" ++ wrappedBody ResultHandling.Discard "1 + 1" ++ "\n\x7d"
    ∧ containsSubstr (maybe_wrap "1 + 1" ResultHandling.Discard).text "fn main"
      = true
    ∧ extract_relevant_lines "Compiling...\nFinished dev [unoptimized] ...\n"
        ["Finished "] ["error: aborting"] = ""
    ∧ sanitizeStderr ["Finished "] ["error: aborting"]
        ⟨true, "", "Compiling...\nFinished dev [unoptimized] ...\n"⟩ =
      ⟨true, "", ""⟩ := by
  exact ⟨by decide, by decide, by decide, by decide, by decide⟩

/-- C8: for every command invocation, if the backend call fails (network or
decode error), the invocation terminates early with that error: the miri,
clippy and expand pipelines all return the error itself and never reach
`send_reply`. -/
theorem hard_errors_abort_invocation (rawCode : String) (edition : Edition)
    (e : Err) :
    (∀ respond : MiriRequest → Except Err PlayResult,
      respond ⟨(maybe_wrap rawCode ResultHandling.Discard).text, edition⟩ =
        .error e →
      miriPipeline rawCode edition respond = .error e)
    ∧ (∀ respond : ClippyRequest → Except Err PlayResult,
      respond (clippyRequest (maybe_wrap rawCode ResultHandling.Discard).text
        edition) = .error e →
      clippyPipeline rawCode edition respond = .error e)
    ∧ (∀ (respond : MacroExpansionRequest → Except Err PlayResult)
        (localRustfmt onlineRustfmt : String → Edition → Except Err PlayResult),
      respond ⟨(maybe_wrap rawCode ResultHandling.None).text, edition⟩ =
        .error e →
      expandPipeline rawCode edition respond localRustfmt onlineRustfmt =
        (.error e, false)) := by
  refine ⟨fun respond h => ?_, fun respond h => ?_,
    fun respond localRustfmt onlineRustfmt h => ?_⟩
  · simp only [miriPipeline]
    rw [h]
  · simp only [clippyPipeline]
    rw [h]
  · simp only [expandPipeline]
    rw [h]

/-- C8 witness: with a backend oracle that fails with a network error, the
miri pipeline terminates with exactly that error. -/
theorem hard_errors_abort_invocation_witness :
    miriPipeline "1 + 1" "2021" (fun _ => .error "network error") =
      .error "network error" :=
  (hard_errors_abort_invocation "1 + 1" "2021" "network error").1
    (fun _ => .error "network error") rfl

/-- C10: the stderr-sanitization step of the miri, expand and clippy commands
modifies only the stderr field of the `PlayResult`: the success flag and the
stdout field are exactly those decoded from the backend response. -/
theorem sanitize_preserves_success_stdout (r : PlayResult) :
    (miriSanitize r).success = r.success ∧ (miriSanitize r).stdout = r.stdout
    ∧ (expandSanitize r).success = r.success
    ∧ (expandSanitize r).stdout = r.stdout
    ∧ (clippySanitize r).success = r.success
    ∧ (clippySanitize r).stdout = r.stdout :=
  ⟨rfl, rfl, rfl, rfl, rfl, rfl⟩

/-- C4: `extract_relevant_lines` scans lines in order, begins emitting after
the first line containing any start marker (that line excluded), stops and
discards the remainder at the first subsequent line containing any stop
marker (also excluded); if no line contains a start marker, the emitted
region is the entire text from the top (up to a stop-marker line if one
occurs). -/
theorem extract_relevant_lines_scan_spec (text : String)
    (starts stops : List String) :
    extract_relevant_lines text starts stops =
      String.mk (joinLines
        (match (splitLines text.data).findIdx?
            (fun l => lineContainsAny l starts) with
         | some i =>
             ((splitLines text.data).drop (i + 1)).takeWhile
               (fun l => !(lineContainsAny l stops))
         | none =>
             (splitLines text.data).takeWhile
               (fun l => !(lineContainsAny l stops)))) := by
  unfold extract_relevant_lines extractCore
  cases hf : (splitLines text.data).findIdx? (fun l => lineContainsAny l starts)
    with
  | none =>
    have hany : (splitLines text.data).any (fun l => lineContainsAny l starts)
        = false := by
      rw [List.any_eq_false]
      intro x hx
      simp [List.findIdx?_eq_none_iff.mp hf x hx]
    rw [if_neg (by simp [hany])]
  | some i =>
    have hany := any_true_of_findIdx?_some _ _ _ hf
    rw [if_pos hany, dropWhile_eq_drop_of_findIdx _ _ _ hf, List.drop_drop]

/-- C6 counterexample: `extract_relevant_lines` is not idempotent in general.
On the text `"a\na"` with start markers `["a"]`, one application yields
`"a"`, a second application yields `""`. -/
theorem extract_twice_ne_once_cex :
    extract_relevant_lines (extract_relevant_lines "a\na" ["a"] []) ["a"] [] ≠
      extract_relevant_lines "a\na" ["a"] []
    ∧ extract_relevant_lines "a\na" ["a"] [] = "a"
    ∧ extract_relevant_lines "a" ["a"] [] = "" := by
  exact ⟨by decide, by decide, by decide⟩

/-- C6 (amended): with empty start- and stop-marker lists
`extract_relevant_lines` returns the input text unchanged, and on any text
none of whose lines contains a start or stop marker it is the identity, and
therefore idempotent there. -/
theorem extract_relevant_lines_no_marker_id (text : String) :
    extract_relevant_lines text [] [] = text
    ∧ ∀ starts stops : List String,
        (∀ l ∈ splitLines text.data,
          lineContainsAny l starts = false ∧ lineContainsAny l stops = false) →
        extract_relevant_lines text starts stops = text
        ∧ extract_relevant_lines (extract_relevant_lines text starts stops)
            starts stops = extract_relevant_lines text starts stops := by
  have key : ∀ starts stops : List String,
      (∀ l ∈ splitLines text.data,
        lineContainsAny l starts = false ∧ lineContainsAny l stops = false) →
      extract_relevant_lines text starts stops = text := by
    intro starts stops h
    unfold extract_relevant_lines extractCore
    have hany : (splitLines text.data).any (fun l => lineContainsAny l starts)
        = false := by
      rw [List.any_eq_false]
      intro x hx
      simp [(h x hx).1]
    rw [if_neg (by simp [hany]),
      takeWhile_all_eq_self _ _ (fun x hx => by simp [(h x hx).2]),
      joinLines_splitLines]
  refine ⟨key [] [] (fun l _ => ⟨rfl, rfl⟩), fun starts stops h => ?_⟩
  have h1 := key starts stops h
  exact ⟨h1, by rw [h1, h1]⟩

/-- C6 witness: on a two-line text containing neither the start marker `x`
nor the stop marker `y`, one and two applications agree. -/
theorem extract_no_marker_id_witness :
    extract_relevant_lines "abc\ndef" ["x"] ["y"] = "abc\ndef"
    ∧ extract_relevant_lines
        (extract_relevant_lines "abc\ndef" ["x"] ["y"]) ["x"] ["y"] =
      extract_relevant_lines "abc\ndef" ["x"] ["y"] :=
  (extract_relevant_lines_no_marker_id "abc\ndef").2 ["x"] ["y"] (by decide)

/-- C1 counterexample: in the fmt command boilerplate stripping is NOT
conditional on formatting success.  With the auto-wrapped snippet `1 + 1`
and a local formatter returning an Ok result with `success = false` and the
wrapped text as stdout, the pipeline still strips the wrapper: the reply
carries stdout `"1 + 1"`, not the untouched stdout the claim requires. -/
theorem fmt_strips_despite_failure_cex :
    (fmtPipeline "1 + 1" "2021"
      (fun _ _ =>
        .ok ⟨false, "fn main() \x7b\n    1 + 1\n\x7d", "could not format"⟩)
      (fun _ _ => .ok ⟨true, "", ""⟩)).1 =
      .ok (send_reply ⟨false, "1 + 1", "could not format"⟩
        (maybe_wrap "1 + 1" ResultHandling.None).text)
    ∧ (maybe_wrap "1 + 1" ResultHandling.None).isOwned = true
    ∧ (fmtPipeline "1 + 1" "2021"
      (fun _ _ =>
        .ok ⟨false, "fn main() \x7b\n    1 + 1\n\x7d", "could not format"⟩)
      (fun _ _ => .ok ⟨true, "", ""⟩)).1 ≠
      .ok (send_reply
        ⟨false, "fn main() \x7b\n    1 + 1\n\x7d", "could not format"⟩
        (maybe_wrap "1 + 1" ResultHandling.None).text) := by
  exact ⟨by decide, by decide, by decide⟩

/-- C1 (amended): in the fmt command the injected entry-point wrapper is
stripped from the formatted stdout if and only if the ownership tag is
Owned; stripping is applied to every Ok formatting result regardless of its
success flag. -/
theorem fmt_strip_iff_wrapped (rawCode : String) (edition : Edition)
    (localRustfmt onlineRustfmt : String → Edition → Except Err PlayResult)
    (r : PlayResult)
    (h : localRustfmt (maybe_wrap rawCode ResultHandling.None).text edition =
      .ok r) :
    (fmtPipeline rawCode edition localRustfmt onlineRustfmt).1 =
      .ok (send_reply
        (if (maybe_wrap rawCode ResultHandling.None).isOwned then
          { r with
            stdout := strip_fn_main_boilerplate_from_formatted r.stdout }
         else r)
        (maybe_wrap rawCode ResultHandling.None).text) := by
  simp only [fmtPipeline]
  rw [h]

/-- C1 witness: for the wrapped snippet `1 + 1` and a successful local
formatting result carrying the formatted wrapper, the reply carries the
stripped stdout. -/
theorem fmt_strip_iff_wrapped_witness :
    (fmtPipeline "1 + 1" "2021"
      (fun _ _ => .ok ⟨true, "fn main() \x7b\n    1 + 1\n\x7d", ""⟩)
      (fun _ _ => .ok ⟨true, "", ""⟩)).1 =
      .ok (send_reply ⟨true, "1 + 1", ""⟩
        (maybe_wrap "1 + 1" ResultHandling.None).text) := by
  have h := fmt_strip_iff_wrapped "1 + 1" "2021"
    (fun _ _ => .ok ⟨true, "fn main() \x7b\n    1 + 1\n\x7d", ""⟩)
    (fun _ _ => .ok ⟨true, "", ""⟩)
    ⟨true, "fn main() \x7b\n    1 + 1\n\x7d", ""⟩ rfl
  rw [h]
  decide

/-- C2: in the fmt command the remote formatting backend is invoked exactly
once if and only if the local formatter fails to execute; in that case the
remote result is returned verbatim modulo boilerplate stripping, and a
failure of the remote call itself propagates as the invocation's terminal
error. -/
theorem fmt_remote_fallback (rawCode : String) (edition : Edition)
    (localRustfmt onlineRustfmt : String → Edition → Except Err PlayResult) :
    (∀ x, localRustfmt (maybe_wrap rawCode ResultHandling.None).text edition =
        .ok x →
      (fmtPipeline rawCode edition localRustfmt onlineRustfmt).2 = 0)
    ∧ ∀ e, localRustfmt (maybe_wrap rawCode ResultHandling.None).text edition =
        .error e →
      (fmtPipeline rawCode edition localRustfmt onlineRustfmt).2 = 1
      ∧ (∀ e', onlineRustfmt (maybe_wrap rawCode ResultHandling.None).text
            edition = .error e' →
          (fmtPipeline rawCode edition localRustfmt onlineRustfmt).1 =
            .error e')
      ∧ ∀ r, onlineRustfmt (maybe_wrap rawCode ResultHandling.None).text
            edition = .ok r →
          (fmtPipeline rawCode edition localRustfmt onlineRustfmt).1 =
            .ok (send_reply
              (if (maybe_wrap rawCode ResultHandling.None).isOwned then
                { r with
                  stdout := strip_fn_main_boilerplate_from_formatted r.stdout }
               else r)
              (maybe_wrap rawCode ResultHandling.None).text) := by
  constructor
  · intro x hx
    simp only [fmtPipeline]
    rw [hx]
  · intro e he
    refine ⟨?_, fun e' he' => ?_, fun r hr => ?_⟩
    · simp only [fmtPipeline]
      rw [he]
      cases onlineRustfmt (maybe_wrap rawCode ResultHandling.None).text edition
        <;> rfl
    · simp only [fmtPipeline]
      rw [he, he']
    · simp only [fmtPipeline]
      rw [he, hr]

/-- C2 witness: when the local formatter fails to execute and the remote
backend also fails, the remote backend is counted once and its error is the
terminal error of the invocation. -/
theorem fmt_remote_fallback_witness :
    (fmtPipeline "1 + 1" "2021" (fun _ _ => .error "rustfmt missing")
      (fun _ _ => .error "network down")).2 = 1
    ∧ (fmtPipeline "1 + 1" "2021" (fun _ _ => .error "rustfmt missing")
      (fun _ _ => .error "network down")).1 = .error "network down" := by
  have h := (fmt_remote_fallback "1 + 1" "2021"
    (fun _ _ => .error "rustfmt missing")
    (fun _ _ => .error "network down")).2 "rustfmt missing" rfl
  exact ⟨h.1, h.2.1 "network down" rfl⟩

/-- C9: in the expand command the local formatter is invoked exactly when the
macro-expansion result has `success = true`; a formatting error or an
unsuccessful formatting result leaves the unformatted expansion stdout in
place, the pipeline still replies normally, and no remote formatting
fallback is ever consulted (the pipeline is constant in the remote
oracle). -/
theorem expand_local_format_policy :
    (∀ (result : PlayResult) (f : Except Err PlayResult),
      (expandFormatStep result f).2 = result.success)
    ∧ (∀ (result : PlayResult) (e : Err),
      (expandFormatStep result (.error e)).1 = result)
    ∧ (∀ (result r : PlayResult), r.success = false →
      (expandFormatStep result (.ok r)).1 = result)
    ∧ (∀ (result : PlayResult) (f : Except Err PlayResult),
      result.success = false → expandFormatStep result f = (result, false))
    ∧ (∀ rawCode edition respond
        (localRustfmt o₁ o₂ : String → Edition → Except Err PlayResult),
      expandPipeline rawCode edition respond localRustfmt o₁ =
        expandPipeline rawCode edition respond localRustfmt o₂)
    ∧ (∀ rawCode edition
        (respond : MacroExpansionRequest → Except Err PlayResult)
        (localRustfmt onlineRustfmt : String → Edition → Except Err PlayResult)
        (result : PlayResult),
      respond ⟨(maybe_wrap rawCode ResultHandling.None).text, edition⟩ =
        .ok result →
      ∃ rep, (expandPipeline rawCode edition respond localRustfmt
        onlineRustfmt).1 = .ok rep) := by
  refine ⟨fun result f => ?_, fun result e => ?_, fun result r h => ?_,
    fun result f h => ?_, fun _ _ _ _ _ _ => rfl,
    fun rawCode edition respond localRustfmt onlineRustfmt result h => ?_⟩
  · cases hr : result.success <;> simp [expandFormatStep, hr]
  · cases hr : result.success <;> simp [expandFormatStep, hr]
  · cases hr : result.success <;> simp [expandFormatStep, hr, h]
  · simp [expandFormatStep, h]
  · simp only [expandPipeline]
    rw [h]
    exact ⟨_, rfl⟩

/-- C9 witness: a successful expansion whose local formatting attempt
reports failure keeps its stdout unchanged. -/
theorem expand_local_format_policy_witness :
    (expandFormatStep ⟨true, "expanded", ""⟩
      (.ok ⟨false, "", "rustfmt error"⟩)).1 = ⟨true, "expanded", ""⟩ :=
  expand_local_format_policy.2.2.1 ⟨true, "expanded", ""⟩
    ⟨false, "", "rustfmt error"⟩ rfl

end Rustbot
